import Mathlib

/-!
# GitAI — verification of the GitHub client against its specification

Shallow embedding of `src/github_integration.py` and `src/cli.py`
(`src/github_integration_compatible.py` / `src/cli_compatible.py` are
byte-for-byte behavioural duplicates of the same logic, so the same
definitions model both).

The remote GitHub API and the transport layer are modelled as explicit
response values handed to each operation: a successful HTTP exchange is an
`Except.ok` carrying the decoded response, a raised `requests` exception is
an `Except.error` carrying the message.  Console diagnostics that encode an
operation's outcome (the ❌/✅ prints paired with the returned value) are
modelled as typed outcome values; network requests and config-file writes
are returned as explicit traces so that claims about "no network call" and
"what is written to disk" are statements about those traces.
-/

namespace GitAI

/-- Python truthiness of an `Optional[str]`: `None` and `""` are falsy. -/
def truthy : Option String → Bool
  | none => false
  | some s => s != ""

/-- `GitHubConfig` dataclass (`github_integration.py` lines 16-22); the
`config_file` path is an opaque location and is not modelled. -/
structure GitHubConfig where
  token : Option String
  username : Option String
  api_base_url : String
deriving DecidableEq

/-- Default `GitHubConfig()` construction. -/
def defaultConfig : GitHubConfig :=
  { token := none, username := none, api_base_url := "https://api.github.com" }

/-- The mutable headers of the `requests.Session`. -/
structure SessionHeaders where
  authorization : Option String
  accept : Option String
  user_agent : Option String
deriving DecidableEq

/-- `_setup_session` (lines 33-40): when a token is held, install the
authorization, accept and user-agent headers; otherwise leave headers
untouched. -/
def setup_session (cfg : GitHubConfig) (h : SessionHeaders) : SessionHeaders :=
  if truthy cfg.token then
    { authorization := cfg.token.map (fun t => "token " ++ t),
      accept := some "application/vnd.github.v3+json",
      user_agent := some "GitAI-CLI/1.0" }
  else h

/-- `_save_config` (lines 80-91): the JSON object written to the config
file, as an ordered field list.  The source writes exactly the two keys
`username` and `api_base_url`; the token is deliberately omitted. -/
def save_config_data (cfg : GitHubConfig) : List (String × Option String) :=
  [("username", cfg.username), ("api_base_url", some cfg.api_base_url)]

/-- Decoded body of the `GET /user` verification response:
`status_code`, `user_data.get('login')`, and the raw `text`. -/
structure UserResp where
  status_code : Nat
  login : Option String
  text : String
deriving DecidableEq

/-- Outcome of `authenticate`, mirroring the returned bool together with
the console diagnostic that distinguishes the failure modes. -/
inductive AuthOutcome where
  | success
  | noCredentials
  | httpFailure (status : Nat) (body : String)
  | transportFailure (msg : String)
deriving DecidableEq

/-- Full observable result of one `authenticate` call: the returned bool,
its typed outcome, the final config and session headers, the URLs
requested, and every config-file write performed. -/
structure AuthResult where
  success : Bool
  outcome : AuthOutcome
  config : GitHubConfig
  headers : SessionHeaders
  calls : List String
  configWrites : List (List (String × Option String))
deriving DecidableEq

/-- `authenticate` (lines 42-78).  Token resolution follows the source's
`if token: ... elif not self.config.token: ...` ladder (the `elif`'s
negation is rendered as the swapped `else` branches below); then the
token-presence check, `_setup_session`, the single `GET {base}/user`
call, and on 200 the username assignment plus `_save_config`. -/
def authenticate (cfg : GitHubConfig) (hdrs : SessionHeaders)
    (tokenArg : Option String) (env : Option String)
    (userResp : Except String UserResp) : AuthResult :=
  let cfg1 :=
    if truthy tokenArg then { cfg with token := tokenArg }
    else if truthy cfg.token then cfg
    else { cfg with token := env }
  if truthy cfg1.token then
    let hdrs1 := setup_session cfg1 hdrs
    let url := cfg1.api_base_url ++ "/user"
    match userResp with
    | .error e =>
        { success := false, outcome := .transportFailure e, config := cfg1,
          headers := hdrs1, calls := [url], configWrites := [] }
    | .ok r =>
        if r.status_code = 200 then
          let cfg2 := { cfg1 with username := r.login }
          { success := true, outcome := .success, config := cfg2,
            headers := hdrs1, calls := [url],
            configWrites := [save_config_data cfg2] }
        else
          { success := false, outcome := .httpFailure r.status_code r.text,
            config := cfg1, headers := hdrs1, calls := [url],
            configWrites := [] }
  else
    { success := false, outcome := .noCredentials, config := cfg1,
      headers := hdrs, calls := [], configWrites := [] }

/-- A repository value; only the fields the claims mention are modelled.
`isPrivate` mirrors the JSON field named `private` (a Lean keyword). -/
structure Repo where
  full_name : String
  isPrivate : Bool
deriving DecidableEq

/-- One decoded page response of `GET /user/repos`. -/
structure RepoPage where
  status_code : Nat
  repos : List Repo
deriving DecidableEq

/-- A remote page exchange: decoded response, or a raised exception. -/
inductive PageResp where
  | ok (page : RepoPage)
  | exn (msg : String)
deriving DecidableEq

/-- The query parameters of one `GET /user/repos` request
(lines 122-133). -/
structure RepoRequest where
  page : Nat
  per_page : Nat
  sort : String
  direction : String
  visibility : String
deriving DecidableEq

/-- The `params` dict built for page `page` (lines 123-133). -/
def mkRepoParams (page : Nat) (include_private : Bool) : RepoRequest :=
  { page := page, per_page := 100, sort := "updated", direction := "desc",
    visibility := if include_private then "all" else "public" }

/-- The `while True` pagination loop of `get_user_repos` (lines 122-148),
with the remote modelled as the finite list of successive page responses
it will give (a terminating run consumes at most that many pages; an
exhausted list stands for a remote that was never asked further).  `acc`
is the `repos` accumulator; the second component is the trace of requests
issued. -/
def get_user_repos_go (include_private : Bool) :
    List PageResp → Nat → List Repo → List Repo × List RepoRequest
  | [], _, acc => (acc, [])
  | resp :: rest, page, acc =>
    let req := mkRepoParams page include_private
    match resp with
    | .exn _ => (acc, [req])
    | .ok pg =>
        if pg.status_code = 200 then
          if pg.repos.isEmpty then (acc, [req])
          else
            let r := get_user_repos_go include_private rest (page + 1)
                       (acc ++ pg.repos)
            (r.fst, req :: r.snd)
        else (acc, [req])

/-- `get_user_repos` (lines 104-150): a missing token short-circuits with
no repositories and no request; otherwise the pagination loop starts at
page 1 with an empty accumulator. -/
def get_user_repos (token : Option String) (include_private : Bool)
    (responses : List PageResp) : List Repo × List RepoRequest :=
  if truthy token then get_user_repos_go include_private responses 1 []
  else ([], [])

/-- Python's `str.split(sep)` for a one-character separator, on the
character list: splits at every occurrence, keeping empty pieces. -/
def splitOnChar (c : Char) : List Char → List (List Char)
  | [] => [[]]
  | x :: xs =>
    if x = c then [] :: splitOnChar c xs
    else
      match splitOnChar c xs with
      | [] => [[x]]
      | y :: ys => (x :: y) :: ys

/-- `repo_path.split('/')` as used throughout `cli.py`. -/
def split_path (p : String) : List String :=
  (splitOnChar '/' p.toList).map List.asString

/-- The `owner, repo_name = repo_path.split('/')` destructuring with its
`except ValueError` guard (`cli.py` lines 67-71 and the four other
identical occurrences): exactly two pieces succeed, anything else is the
local invalid-path rejection. -/
def parse_repo_path (p : String) : Option (String × String) :=
  match split_path p with
  | [owner, repo_name] => some (owner, repo_name)
  | _ => none

/-- Decoded response of `GET /repos/{owner}/{repo}`; the repository JSON
body is kept opaque. -/
structure RepoInfoResp where
  status_code : Nat
  body : String
deriving DecidableEq

/-- Outcome of `get_repo_info` (lines 152-175): the returned value paired
with the diagnostic that distinguishes 404 from other failures. -/
inductive RepoInfoOutcome where
  | info (body : String)
  | notFound
  | apiError (status : Nat)
  | transportError (msg : String)
deriving DecidableEq

/-- `get_repo_info` (lines 152-175). -/
def get_repo_info (resp : Except String RepoInfoResp) : RepoInfoOutcome :=
  match resp with
  | .error e => .transportError e
  | .ok r =>
      if r.status_code = 200 then .info r.body
      else if r.status_code = 404 then .notFound
      else .apiError r.status_code

/-- Result of the CLI `repo` command. -/
inductive CliRepoInfoResult where
  | invalidPath
  | fromApi (o : RepoInfoOutcome)
deriving DecidableEq

/-- `GitAICLI.get_repo_info` (`cli.py` lines 65-90): parse the path
locally, and only on success issue the single network request (whose
owner/name pair is recorded in the trace). -/
def cli_get_repo_info (path : String) (resp : Except String RepoInfoResp) :
    CliRepoInfoResult × List (String × String) :=
  match parse_repo_path path with
  | none => (.invalidPath, [])
  | some (owner, repo_name) =>
      (.fromApi (get_repo_info resp), [(owner, repo_name)])

/-- An issue value; only the fields the claims mention are modelled. -/
structure Issue where
  number : Nat
  title : String
deriving DecidableEq

/-- Decoded response of `POST /repos/{owner}/{repo}/issues`: status code,
the issue decoded from the body (read only on 201), and the raw text
(read only on failure). -/
structure IssueResp where
  status_code : Nat
  issue : Issue
  text : String
deriving DecidableEq

/-- Outcome of `create_issue` (lines 264-297), mirroring the returned
value and the diagnostic carrying the status and body. -/
inductive CreateIssueOutcome where
  | created (i : Issue)
  | apiError (status : Nat) (body : String)
  | transportError (msg : String)
deriving DecidableEq

/-- The JSON payload of the issue-creation request (lines 278-284):
`labels` is present only when the argument is truthy (non-`None`,
non-empty). -/
structure IssueRequest where
  owner : String
  repo_name : String
  title : String
  body : String
  labels : Option (List String)
deriving DecidableEq

/-- `GitHubIntegration.create_issue` (lines 264-297): build the payload,
issue the single POST, and decode 201 as a created issue, any other
status as a failure carrying status and body, an exception as a transport
failure.  The request trace records the one POST issued. -/
def create_issue (owner repo_name title body : String)
    (labels : Option (List String)) (resp : Except String IssueResp) :
    CreateIssueOutcome × List IssueRequest :=
  let lab := match labels with
    | some ls => if ls.isEmpty then none else some ls
    | none => none
  let req : IssueRequest :=
    { owner := owner, repo_name := repo_name, title := title, body := body,
      labels := lab }
  match resp with
  | .error e => (.transportError e, [req])
  | .ok r =>
      if r.status_code = 201 then (.created r.issue, [req])
      else (.apiError r.status_code r.text, [req])

/-- Result of the CLI `create-issue` command. -/
inductive CliCreateIssueResult where
  | invalidPath
  | notAuthenticated
  | fromApi (o : CreateIssueOutcome)
deriving DecidableEq

/-- `GitAICLI.create_issue` (`cli.py` lines 169-184): parse the path,
then require a token before calling the integration layer (which is
invoked with no labels). -/
def cli_create_issue (token : Option String) (path title body : String)
    (resp : Except String IssueResp) :
    CliCreateIssueResult × List IssueRequest :=
  match parse_repo_path path with
  | none => (.invalidPath, [])
  | some (owner, repo_name) =>
      if truthy token then
        let r := create_issue owner repo_name title body none resp
        (.fromApi r.fst, r.snd)
      else (.notAuthenticated, [])

/-- A branch value. -/
structure Branch where
  name : String
deriving DecidableEq

/-- A commit value. -/
structure Commit where
  sha : String
deriving DecidableEq

/-- A decoded single-page listing response. -/
structure ListingResp (α : Type) where
  status_code : Nat
  items : List α
deriving DecidableEq

/-- `get_repo_branches` (lines 213-233): single request, 200 yields the
decoded list, any other status yields the empty list and reports the
status, an exception yields the empty list. -/
def get_repo_branches (resp : Except String (ListingResp Branch)) :
    List Branch × Option Nat :=
  match resp with
  | .error _ => ([], none)
  | .ok r =>
      if r.status_code = 200 then (r.items, none)
      else ([], some r.status_code)

/-- The `params` of the commits request (lines 248-251). -/
structure CommitsRequest where
  sha : String
  per_page : Nat
deriving DecidableEq

/-- `get_repo_commits` (lines 235-262): one request with
`sha = branch`, `per_page = limit`; 200 yields the decoded list, any
other status yields the empty list and reports the status. -/
def get_repo_commits (branch : String) (limit : Nat)
    (resp : Except String (ListingResp Commit)) :
    List Commit × Option Nat × CommitsRequest :=
  let req : CommitsRequest := { sha := branch, per_page := limit }
  match resp with
  | .error _ => ([], none, req)
  | .ok r =>
      if r.status_code = 200 then (r.items, none, req)
      else ([], some r.status_code, req)

/-- The `params` of the issues request (lines 311-315). -/
structure IssuesRequest where
  state : String
  sort : String
  direction : String
deriving DecidableEq

/-- `get_repo_issues` (lines 299-326): one request with the given state;
200 yields the decoded list, any other status yields the empty list and
reports the status. -/
def get_repo_issues (state : String)
    (resp : Except String (ListingResp Issue)) :
    List Issue × Option Nat × IssuesRequest :=
  let req : IssuesRequest := { state := state, sort := "updated", direction := "desc" }
  match resp with
  | .error _ => ([], none, req)
  | .ok r =>
      if r.status_code = 200 then (r.items, none, req)
      else ([], some r.status_code, req)

/-- A page response at which the pagination loop stops: a raised
exception, a non-200 status, or an empty 200 page. -/
def isStopResp : PageResp → Prop
  | .exn _ => True
  | .ok pg => pg.status_code ≠ 200 ∨ pg.repos = []

/-- The repositories carried by a page exchange (none for an
exception). -/
def pageRepos : PageResp → List Repo
  | .ok pg => pg.repos
  | .exn _ => []

/-! ## Theorems -/

@[simp] theorem truthy_none : truthy none = false := rfl

@[simp] theorem truthy_some (s : String) : truthy (some s) = (s != "") := rfl

/-- C2: the token is never written to persisted storage.  `_save_config`
is the only config-file write in the program; its field list is exactly
`username`, `api_base_url` for every config state and never contains
`token`; and every write performed by any `authenticate` run passes the
same check. -/
theorem token_never_persisted :
    (∀ cfg : GitHubConfig,
      (save_config_data cfg).map Prod.fst = ["username", "api_base_url"]) ∧
    (∀ cfg : GitHubConfig,
      ((save_config_data cfg).map Prod.fst).contains "token" = false) ∧
    (∀ cfg hdrs tokenArg env userResp,
      ((authenticate cfg hdrs tokenArg env userResp).configWrites).all
        (fun w => w.map Prod.fst == ["username", "api_base_url"] &&
                  !(w.map Prod.fst).contains "token") = true) := by
  refine ⟨fun cfg => rfl, fun cfg => rfl, ?_⟩
  intro cfg hdrs tokenArg env userResp
  unfold authenticate
  dsimp only
  repeat' split
  all_goals rfl

/-- C5: with no explicit token, no token in the session, and no
`GITHUB_TOKEN` in the environment, `authenticate` returns the
no-credentials failure and issues no network call. -/
theorem authenticate_no_credentials (cfg : GitHubConfig)
    (hdrs : SessionHeaders) (userResp : Except String UserResp)
    (h : truthy cfg.token = false) :
    (authenticate cfg hdrs none none userResp).success = false ∧
    (authenticate cfg hdrs none none userResp).outcome = .noCredentials ∧
    (authenticate cfg hdrs none none userResp).calls = [] := by
  unfold authenticate
  simp [h]

/-- Witness for C5 at a concrete session with no token anywhere. -/
theorem authenticate_no_credentials_witness :
    (authenticate defaultConfig ⟨none, none, none⟩ none none
      (.ok ⟨200, some "alice", ""⟩)).success = false ∧
    (authenticate defaultConfig ⟨none, none, none⟩ none none
      (.ok ⟨200, some "alice", ""⟩)).outcome = .noCredentials ∧
    (authenticate defaultConfig ⟨none, none, none⟩ none none
      (.ok ⟨200, some "alice", ""⟩)).calls = [] :=
  authenticate_no_credentials defaultConfig ⟨none, none, none⟩
    (.ok ⟨200, some "alice", ""⟩) (by decide)

/-- C10: token sources are consulted in the order explicit argument,
session token, environment variable; the session's resulting token equals
the first truthy source, and the environment is consulted only when the
session holds no (truthy) token. -/
theorem token_source_order (cfg : GitHubConfig) (hdrs : SessionHeaders)
    (tokenArg env : Option String) (userResp : Except String UserResp) :
    (authenticate cfg hdrs tokenArg env userResp).config.token =
      (if truthy tokenArg then tokenArg
       else if truthy cfg.token then cfg.token
       else env) := by
  unfold authenticate
  dsimp only
  repeat' split
  all_goals simp_all

/-- C7: with a truthy token and a 200 verification response whose body
carries a `login` field, `authenticate` stores that login as the
session's username, writes exactly `{username, api_base_url}` to the
config file, and returns success. -/
theorem authenticate_success (cfg : GitHubConfig) (hdrs : SessionHeaders)
    (t : String) (ht : t ≠ "") (env : Option String) (l : String)
    (txt : String) :
    (authenticate cfg hdrs (some t) env (.ok ⟨200, some l, txt⟩)).success
        = true ∧
    (authenticate cfg hdrs (some t) env (.ok ⟨200, some l, txt⟩)).outcome
        = .success ∧
    (authenticate cfg hdrs (some t) env
        (.ok ⟨200, some l, txt⟩)).config.username = some l ∧
    (authenticate cfg hdrs (some t) env
        (.ok ⟨200, some l, txt⟩)).configWrites =
      [[("username", some l), ("api_base_url", some cfg.api_base_url)]] ∧
    (authenticate cfg hdrs (some t) env
        (.ok ⟨200, some l, txt⟩)).calls = [cfg.api_base_url ++ "/user"] := by
  unfold authenticate
  simp [ht, save_config_data]

/-- Witness for C7 at a concrete token and login. -/
theorem authenticate_success_witness :
    (authenticate defaultConfig ⟨none, none, none⟩ (some "tok123") none
        (.ok ⟨200, some "alice", "body"⟩)).success = true ∧
    (authenticate defaultConfig ⟨none, none, none⟩ (some "tok123") none
        (.ok ⟨200, some "alice", "body"⟩)).outcome = .success ∧
    (authenticate defaultConfig ⟨none, none, none⟩ (some "tok123") none
        (.ok ⟨200, some "alice", "body"⟩)).config.username = some "alice" ∧
    (authenticate defaultConfig ⟨none, none, none⟩ (some "tok123") none
        (.ok ⟨200, some "alice", "body"⟩)).configWrites =
      [[("username", some "alice"),
        ("api_base_url", some defaultConfig.api_base_url)]] ∧
    (authenticate defaultConfig ⟨none, none, none⟩ (some "tok123") none
        (.ok ⟨200, some "alice", "body"⟩)).calls =
      [defaultConfig.api_base_url ++ "/user"] :=
  authenticate_success defaultConfig ⟨none, none, none⟩ "tok123"
    (by decide) none "alice" "body"

/-- The verification exchange fails: a transport error, or a decoded
response with a status other than 200. -/
def authRespFails : Except String UserResp → Prop
  | .error _ => True
  | .ok r => r.status_code ≠ 200

/-- C9: when the verification call fails (non-200 or transport error),
`authenticate` reports failure, leaves the session's username unchanged
and writes nothing to the config file — but the in-memory token and the
session's authorization header have already been updated with the
unverified token. -/
theorem authenticate_failure_preserves (cfg : GitHubConfig)
    (hdrs : SessionHeaders) (t : String) (ht : t ≠ "")
    (env : Option String) (userResp : Except String UserResp)
    (hfail : authRespFails userResp) :
    (authenticate cfg hdrs (some t) env userResp).success = false ∧
    (authenticate cfg hdrs (some t) env userResp).config.username
        = cfg.username ∧
    (authenticate cfg hdrs (some t) env userResp).configWrites = [] ∧
    (authenticate cfg hdrs (some t) env userResp).config.token = some t ∧
    (authenticate cfg hdrs (some t) env userResp).headers.authorization
        = some ("token " ++ t) := by
  unfold authenticate
  cases userResp with
  | error e => simp [ht, setup_session]
  | ok r =>
      have hr : r.status_code ≠ 200 := hfail
      simp [ht, hr, setup_session]

/-- Witness for C9 at a concrete token and a 401 response. -/
theorem authenticate_failure_preserves_witness :
    (authenticate defaultConfig ⟨none, none, none⟩ (some "badtok") none
        (.ok ⟨401, none, "Bad credentials"⟩)).success = false ∧
    (authenticate defaultConfig ⟨none, none, none⟩ (some "badtok") none
        (.ok ⟨401, none, "Bad credentials"⟩)).config.username
        = defaultConfig.username ∧
    (authenticate defaultConfig ⟨none, none, none⟩ (some "badtok") none
        (.ok ⟨401, none, "Bad credentials"⟩)).configWrites = [] ∧
    (authenticate defaultConfig ⟨none, none, none⟩ (some "badtok") none
        (.ok ⟨401, none, "Bad credentials"⟩)).config.token = some "badtok" ∧
    (authenticate defaultConfig ⟨none, none, none⟩ (some "badtok") none
        (.ok ⟨401, none, "Bad credentials"⟩)).headers.authorization
        = some ("token " ++ "badtok") :=
  authenticate_failure_preserves defaultConfig ⟨none, none, none⟩ "badtok"
    (by decide) none (.ok ⟨401, none, "Bad credentials"⟩)
    (by show (401 : Nat) ≠ 200; decide)

/-- Splitting at a character yields one more piece than there are
occurrences of the character. -/
theorem splitOnChar_length (c : Char) (l : List Char) :
    (splitOnChar c l).length = l.count c + 1 := by
  induction l with
  | nil => rfl
  | cons x xs ih =>
      by_cases h : x = c
      · subst h
        simp [splitOnChar, List.count_cons, ih]
      · cases hsp : splitOnChar c xs with
        | nil => rw [hsp] at ih; simp at ih
        | cons y ys =>
            rw [hsp] at ih
            simp only [List.length_cons] at ih
            simp only [splitOnChar, h, if_false, hsp, List.length_cons]
            rw [List.count_cons_of_ne (Ne.symm h)]
            omega

/-- A path whose split does not have exactly two pieces fails to parse. -/
theorem parse_repo_path_eq_none (p : String)
    (h : (split_path p).length ≠ 2) : parse_repo_path p = none := by
  unfold parse_repo_path
  cases hs : split_path p with
  | nil => rfl
  | cons a t =>
      cases t with
      | nil => rfl
      | cons b t2 =>
          cases t2 with
          | nil => rw [hs] at h; simp at h
          | cons d t3 => rfl

/-- C4: a repository path containing no slash, or more than one slash,
is rejected locally by the `repo` command with the invalid-path error,
and no network request is issued. -/
theorem repo_info_rejects_malformed (p : String)
    (h : p.toList.count '/' = 0 ∨ 2 ≤ p.toList.count '/')
    (resp : Except String RepoInfoResp) :
    cli_get_repo_info p resp = (.invalidPath, []) := by
  have hlen : (split_path p).length = p.toList.count '/' + 1 := by
    unfold split_path
    rw [List.length_map]
    exact splitOnChar_length '/' p.toList
  have hp : parse_repo_path p = none := by
    apply parse_repo_path_eq_none
    rw [hlen]
    rcases h with h0 | h2
    · omega
    · omega
  unfold cli_get_repo_info
  rw [hp]

/-- Witness for C4: a slash-free path and a path with two slashes are
both rejected without a request, for an arbitrary concrete response. -/
theorem repo_info_rejects_malformed_witness :
    cli_get_repo_info "ownerrepo" (.ok ⟨200, "body"⟩)
        = (.invalidPath, []) ∧
    cli_get_repo_info "a/b/c" (.ok ⟨200, "body"⟩)
        = (.invalidPath, []) :=
  ⟨repo_info_rejects_malformed "ownerrepo" (by left; decide)
      (.ok ⟨200, "body"⟩),
   repo_info_rejects_malformed "a/b/c" (by right; decide)
      (.ok ⟨200, "body"⟩)⟩

/-- C8: on any non-200 listing response, the branch, commit and issue
listings each return the empty sequence while reporting the status. -/
theorem listings_non200_empty (s : Nat) (hs : s ≠ 200)
    (bs : List Branch) (cs : List Commit) (iss : List Issue)
    (branch : String) (limit : Nat) (state : String) :
    get_repo_branches (.ok ⟨s, bs⟩) = ([], some s) ∧
    get_repo_commits branch limit (.ok ⟨s, cs⟩)
        = ([], some s, ⟨branch, limit⟩) ∧
    get_repo_issues state (.ok ⟨s, iss⟩)
        = ([], some s, ⟨state, "updated", "desc"⟩) := by
  refine ⟨?_, ?_, ?_⟩ <;>
    simp [get_repo_branches, get_repo_commits, get_repo_issues, hs]

/-- Witness for C8 at status 500 and concrete nonempty remote lists. -/
theorem listings_non200_empty_witness :
    get_repo_branches (.ok ⟨500, [⟨"main"⟩]⟩) = ([], some 500) ∧
    get_repo_commits "main" 10 (.ok ⟨500, [⟨"abc"⟩]⟩)
        = ([], some 500, ⟨"main", 10⟩) ∧
    get_repo_issues "open" (.ok ⟨500, [⟨1, "t"⟩]⟩)
        = ([], some 500, ⟨"open", "updated", "desc"⟩) :=
  listings_non200_empty 500 (by decide) [⟨"main"⟩] [⟨"abc"⟩] [⟨1, "t"⟩]
    "main" 10 "open"

/-- C6: the `create-issue` command requires an authenticated session —
with a well-formed path but no token it fails without issuing the
issue-creation request; and with a token, a response whose status is not
201 yields the typed API-error failure carrying status and body rather
than a created issue. -/
theorem create_issue_requires_auth (path title body : String)
    (owner repo_name : String)
    (hparse : parse_repo_path path = some (owner, repo_name)) :
    (∀ resp, cli_create_issue none path title body resp
        = (.notAuthenticated, [])) ∧
    (∀ (tok : String), tok ≠ "" → ∀ (s : Nat), s ≠ 201 →
      ∀ (isu : Issue) (txt : String),
      cli_create_issue (some tok) path title body (.ok ⟨s, isu, txt⟩)
        = (.fromApi (.apiError s txt),
           [⟨owner, repo_name, title, body, none⟩])) := by
  constructor
  · intro resp
    unfold cli_create_issue
    rw [hparse]
    rfl
  · intro tok htok s hs isu txt
    unfold cli_create_issue
    rw [hparse]
    simp [htok, create_issue, hs]

/-- Witness for C6 at a concrete path, token and 422 response. -/
theorem create_issue_requires_auth_witness :
    cli_create_issue none "alice/www" "bug" "details"
        (.ok ⟨201, ⟨7, "bug"⟩, ""⟩) = (.notAuthenticated, []) ∧
    cli_create_issue (some "tok") "alice/www" "bug" "details"
        (.ok ⟨422, ⟨7, "bug"⟩, "Validation Failed"⟩)
      = (.fromApi (.apiError 422 "Validation Failed"),
         [⟨"alice", "www", "bug", "details", none⟩]) := by
  have h := create_issue_requires_auth "alice/www" "bug" "details"
    "alice" "www" (by decide)
  exact ⟨h.1 (.ok ⟨201, ⟨7, "bug"⟩, ""⟩),
         h.2 "tok" (by decide) 422 (by decide) ⟨7, "bug"⟩
           "Validation Failed"⟩

/-- The pagination loop over a run of full 200 pages followed by a
stopping response: it returns the accumulator extended by the
concatenation of the full pages, and the requests issued are the
consecutive pages starting at `page`, one per consumed response. -/
theorem get_user_repos_go_spec (ip : Bool) (stop : PageResp)
    (hs : isStopResp stop) (rest : List PageResp) :
    ∀ (good : List RepoPage),
      (∀ p ∈ good, p.status_code = 200 ∧ p.repos ≠ []) →
      ∀ (page : Nat) (acc : List Repo),
      get_user_repos_go ip (good.map PageResp.ok ++ stop :: rest) page acc =
        (acc ++ (good.map RepoPage.repos).flatten,
         (List.range (good.length + 1)).map
           (fun i => mkRepoParams (page + i) ip)) := by
  intro good
  induction good with
  | nil =>
      intro _ page acc
      cases stop with
      | exn m => simp [get_user_repos_go, List.range_succ]
      | ok pg =>
          rcases hs with h200 | hemp
          · simp [get_user_repos_go, h200, List.range_succ]
          · simp [get_user_repos_go, hemp, List.range_succ]
  | cons p gs ih =>
      intro hg page acc
      have hp := hg p (List.mem_cons_self p gs)
      have hgs : ∀ q ∈ gs, q.status_code = 200 ∧ q.repos ≠ [] :=
        fun q hq => hg q (List.mem_cons_of_mem p hq)
      have hne : p.repos.isEmpty = false := by
        cases hpr : p.repos with
        | nil => exact absurd hpr hp.2
        | cons a as => rfl
      have ihr := ih hgs (page + 1) (acc ++ p.repos)
      simp only [List.map_cons, List.cons_append, get_user_repos_go,
        hp.1, if_true, hne, Bool.false_eq_true, if_false, List.append_eq]
      rw [ihr]
      simp only [Prod.mk.injEq]
      constructor
      · simp only [List.flatten_cons, List.append_assoc]
      · conv_rhs => rw [show (p :: gs).length = gs.length + 1 from rfl,
          List.range_succ_eq_map, List.map_cons, List.map_map]
        congr 1
        refine List.map_congr_left ?_
        intro i _
        simp only [Function.comp_apply, Nat.succ_eq_add_one]
        congr 1
        omega

/-- C1: with a token held, `get_user_repos` requests consecutive pages
with `per_page = 100` starting at page 1, stops at the first stopping
response (empty 200 page, non-200 status, or transport error), and
returns the repositories of the preceding full pages concatenated in
remote order — on a non-200 page exactly the repositories collected from
the earlier pages. -/
theorem get_user_repos_pagination (t : String) (ht : t ≠ "") (ip : Bool)
    (good : List RepoPage)
    (hg : ∀ p ∈ good, p.status_code = 200 ∧ p.repos ≠ [])
    (stop : PageResp) (hs : isStopResp stop) (rest : List PageResp) :
    get_user_repos (some t) ip (good.map PageResp.ok ++ stop :: rest) =
      ((good.map RepoPage.repos).flatten,
       (List.range (good.length + 1)).map
         (fun i => mkRepoParams (1 + i) ip)) := by
  unfold get_user_repos
  have htr : truthy (some t) = true := by simp [ht]
  rw [if_pos htr]
  simpa using get_user_repos_go_spec ip stop hs rest good hg 1 []

/-- Witness for C1: two full pages, then an empty page; the result is
the concatenation in order and the requests are pages 1, 2, 3 with
`per_page = 100`. -/
theorem get_user_repos_pagination_witness :
    get_user_repos (some "t") true
      [PageResp.ok ⟨200, [⟨"alice/r1", false⟩]⟩,
       PageResp.ok ⟨200, [⟨"alice/r2", false⟩, ⟨"alice/r3", true⟩]⟩,
       PageResp.ok ⟨200, []⟩] =
      ([⟨"alice/r1", false⟩, ⟨"alice/r2", false⟩, ⟨"alice/r3", true⟩],
       [mkRepoParams 1 true, mkRepoParams 2 true, mkRepoParams 3 true]) := by
  have h := get_user_repos_pagination "t" (by decide) true
    [⟨200, [⟨"alice/r1", false⟩]⟩,
     ⟨200, [⟨"alice/r2", false⟩, ⟨"alice/r3", true⟩]⟩]
    (by decide) (PageResp.ok ⟨200, []⟩) (Or.inr rfl) []
  simpa [List.range_succ] using h

/-- Every repository in the loop's result comes from the accumulator or
from one of the consumed page responses. -/
theorem get_user_repos_go_mem (ip : Bool) :
    ∀ (responses : List PageResp) (page : Nat) (acc : List Repo)
      (r : Repo), r ∈ (get_user_repos_go ip responses page acc).fst →
      r ∈ acc ∨ ∃ resp ∈ responses, r ∈ pageRepos resp := by
  intro responses
  induction responses with
  | nil =>
      intro page acc r hr
      exact Or.inl hr
  | cons resp rest ih =>
      intro page acc r hr
      cases resp with
      | exn m =>
          simp only [get_user_repos_go] at hr
          exact Or.inl hr
      | ok pg =>
          by_cases h200 : pg.status_code = 200
          · cases hemp : pg.repos.isEmpty with
            | true =>
                simp only [get_user_repos_go, h200, if_true, hemp] at hr
                exact Or.inl hr
            | false =>
                simp only [get_user_repos_go, h200, if_true, hemp,
                  Bool.false_eq_true, if_false] at hr
                rcases ih (page + 1) (acc ++ pg.repos) r hr with
                  hacc | ⟨q, hq, hrq⟩
                · rcases List.mem_append.mp hacc with h1 | h2
                  · exact Or.inl h1
                  · exact Or.inr ⟨PageResp.ok pg, List.mem_cons_self _ _, h2⟩
                · exact Or.inr ⟨q, List.mem_cons_of_mem _ hq, hrq⟩
          · simp only [get_user_repos_go, h200, if_false] at hr
            exact Or.inl hr

/-- Every request issued by the loop carries the visibility parameter
determined by `include_private`. -/
theorem get_user_repos_go_visibility (ip : Bool) :
    ∀ (responses : List PageResp) (page : Nat) (acc : List Repo)
      (req : RepoRequest),
      req ∈ (get_user_repos_go ip responses page acc).snd →
      req.visibility = (if ip then "all" else "public") := by
  intro responses
  induction responses with
  | nil =>
      intro page acc req hreq
      simp [get_user_repos_go] at hreq
  | cons resp rest ih =>
      intro page acc req hreq
      cases resp with
      | exn m =>
          simp only [get_user_repos_go, List.mem_singleton] at hreq
          subst hreq
          rfl
      | ok pg =>
          by_cases h200 : pg.status_code = 200
          · cases hemp : pg.repos.isEmpty with
            | true =>
                simp only [get_user_repos_go, h200, if_true, hemp,
                  List.mem_singleton] at hreq
                subst hreq
                rfl
            | false =>
                simp only [get_user_repos_go, h200, if_true, hemp,
                  Bool.false_eq_true, if_false, List.mem_cons] at hreq
                rcases hreq with hreq | hreq
                · subst hreq; rfl
                · exact ih (page + 1) (acc ++ pg.repos) req hreq
          · simp only [get_user_repos_go, h200, if_false,
              List.mem_singleton] at hreq
            subst hreq
            rfl

/-- Counterexample for C3 as stated: the private filter is delegated to
the remote; if a 200 page of a `visibility=public` listing contains a
repository flagged private, `get_user_repos(include_private := false)`
returns it — there is no local filtering. -/
theorem get_user_repos_private_in_result :
    ((get_user_repos (some "t") false
        [PageResp.ok ⟨200, [⟨"alice/secret", true⟩]⟩,
         PageResp.ok ⟨200, []⟩]).fst.any (fun r => r.isPrivate)) = true := by
  decide

/-- C3 (amended): `get_user_repos(include_private := false)` requests
`visibility = "public"` on every page, and its result contains no
private repository provided every page the remote returned contains only
non-private repositories. -/
theorem get_user_repos_public_filter (t : String) (ht : t ≠ "")
    (responses : List PageResp)
    (hresp : ∀ resp ∈ responses, ∀ r ∈ pageRepos resp,
      r.isPrivate = false) :
    (∀ r ∈ (get_user_repos (some t) false responses).fst,
      r.isPrivate = false) ∧
    (∀ req ∈ (get_user_repos (some t) false responses).snd,
      req.visibility = "public") := by
  have htr : truthy (some t) = true := by simp [ht]
  unfold get_user_repos
  rw [if_pos htr]
  constructor
  · intro r hr
    rcases get_user_repos_go_mem false responses 1 [] r hr with
      hacc | ⟨resp, hresp', hrr⟩
    · cases hacc
    · exact hresp resp hresp' r hrr
  · intro req hreq
    simpa using get_user_repos_go_visibility false responses 1 [] req hreq

/-- Witness for the amended C3: a concrete public repository appears in
the result and is indeed not private; the issued requests ask for
`visibility = "public"`. -/
theorem get_user_repos_public_filter_witness :
    (⟨"alice/pub", false⟩ : Repo) ∈
      (get_user_repos (some "t") false
        [PageResp.ok ⟨200, [⟨"alice/pub", false⟩]⟩,
         PageResp.ok ⟨200, []⟩]).fst ∧
    (⟨"alice/pub", false⟩ : Repo).isPrivate = false ∧
    mkRepoParams 1 false ∈
      (get_user_repos (some "t") false
        [PageResp.ok ⟨200, [⟨"alice/pub", false⟩]⟩,
         PageResp.ok ⟨200, []⟩]).snd ∧
    (mkRepoParams 1 false).visibility = "public" := by
  have h := get_user_repos_public_filter "t" (by decide)
    [PageResp.ok ⟨200, [⟨"alice/pub", false⟩]⟩, PageResp.ok ⟨200, []⟩]
    (by decide)
  refine ⟨by decide, ?_, by decide, ?_⟩
  · exact h.1 ⟨"alice/pub", false⟩ (by decide)
  · exact h.2 (mkRepoParams 1 false) (by decide)

end GitAI
